import Mathlib

/-!
# ConditionalAccessPolicyClient (hamilton/msgraph/conditionalaccesspolicy.go)

A shallow embedding of the five operations of `ConditionalAccessPolicyClient`
(`List`, `Create`, `Get`, `Update`, `Delete`).

The operations are glue around collaborators that live outside the file:
the base client (`c.BaseClient.Get/Post/Patch/Delete`), `encoding/json`
(`json.Marshal`, `json.Unmarshal`), `io.ReadAll` and `odata.Query.Values`.
They are taken as parameters, so every theorem holds for every behaviour of
these collaborators.  Each interaction with a collaborator is appended to a
trace, which is how "calls the base client exactly once" is stated.

Go values are embedded as follows.

* `error`            : `Option String` (`none` is `nil`, `some m` an error whose
                       `Error()` is `m`);
* a pointer `*T`     : `Option T` (`none` is `nil`);
* a slice `[]T`      : `Slice T` (a list; the `nil` slice is the empty list);
* `[]byte`           : `Bytes`;
* `int`              : `Int`;
* a run-time panic (nil pointer dereference) : `Outcome.panicked`.
-/

namespace Msgraph

universe u

/-- Go slice `[]T`; the `nil` slice and the empty slice are both `[]`. -/
abbrev Slice (α : Type u) : Type u := List α

/-- Go `[]byte`. -/
abbrev Bytes : Type := Slice Nat

/-- Go `url.Values` (`map[string][]string`); the `nil` map is `[]`. -/
abbrev UrlValues : Type := Slice (String × Slice String)

/-- Value of `http.StatusOK`. -/
def StatusOK : Int := 200

/-- Value of `http.StatusCreated`. -/
def StatusCreated : Int := 201

/-- Value of `http.StatusNoContent`. -/
def StatusNoContent : Int := 204

/-- Go `context.Context`, passed through to the base client untouched. -/
structure Context where
  name : String
  deriving DecidableEq, Repr

/-- Modelled from the spec: the declaration of `ConditionalAccessPolicy`
(models.go) is not part of the file.  The spec describes it as "an opaque JSON
document with an optional identifier field"; `ID` is the `*string` identifier,
`Document` stands for all remaining fields. -/
structure ConditionalAccessPolicy where
  ID : Option String
  Document : String
  deriving DecidableEq, Repr

/-- Modelled from the spec: `odata.Query` is declared outside the file.  The
only field the file reads is `Top`; `Other` stands for the remaining
OData-style parameters. -/
structure Query where
  Top : Int
  Other : String
  deriving DecidableEq, Repr

/-- Modelled from the spec: a consistency-retry hook ("callback invoked to
retry a request after eventual-consistency-related 404 responses").  Go
function values carry no equality, so a hook is identified by the name of the
function it refers to. -/
structure ConsistencyFailureFunc where
  name : String
  deriving DecidableEq, Repr

/-- The hook `RetryOn404ConsistencyFailureFunc`, defined in the base client. -/
def RetryOn404ConsistencyFailureFunc : ConsistencyFailureFunc :=
  { name := "RetryOn404ConsistencyFailureFunc" }

/-- Go struct `Uri` of the base client, with the fields the file sets. -/
structure Uri where
  Entity : String
  Params : UrlValues
  HasTenantId : Bool
  deriving DecidableEq, Repr

/-- Go struct `GetHttpRequestInput`; a field the caller leaves out has its
zero value (`none` for a `nil` hook). -/
structure GetHttpRequestInput where
  ConsistencyFailureFunc : Option ConsistencyFailureFunc
  DisablePaging : Bool
  ValidStatusCodes : Slice Int
  Uri : Uri
  deriving DecidableEq, Repr

/-- Go struct `PostHttpRequestInput`. -/
structure PostHttpRequestInput where
  Body : Bytes
  ConsistencyFailureFunc : Option ConsistencyFailureFunc
  ValidStatusCodes : Slice Int
  Uri : Uri
  deriving DecidableEq, Repr

/-- Go struct `PatchHttpRequestInput`. -/
structure PatchHttpRequestInput where
  Body : Bytes
  ConsistencyFailureFunc : Option ConsistencyFailureFunc
  ValidStatusCodes : Slice Int
  Uri : Uri
  deriving DecidableEq, Repr

/-- Go struct `DeleteHttpRequestInput`. -/
structure DeleteHttpRequestInput where
  ConsistencyFailureFunc : Option ConsistencyFailureFunc
  ValidStatusCodes : Slice Int
  Uri : Uri
  deriving DecidableEq, Repr

/-- The body of an `http.Response` (an `io.ReadCloser`): `content` is what
reading it to the end yields, the bytes or a read error. -/
structure ReadCloser where
  content : Except String Bytes

/-- Go `http.Response`, with the one field the file reads. -/
structure Response where
  Body : ReadCloser

/-- Go `io.ReadAll`. -/
def ioReadAll (r : ReadCloser) : Except String Bytes := r.content

/-- Go `odata.OData`, the third value a base client verb returns; the file
discards it. -/
structure OData where
  raw : String

/-- The four values a base client verb returns:
`(*http.Response, int, *odata.OData, error)`. -/
structure VerbResult where
  resp : Option Response
  status : Int
  odata : Option OData
  err : Option String

/-- The base client (Go type `Client`), an external collaborator: each verb
takes the context and the request input and acts on the outside world `σ`. -/
structure Client (σ : Type) where
  Get : Context → GetHttpRequestInput → σ → VerbResult × σ
  Post : Context → PostHttpRequestInput → σ → VerbResult × σ
  Patch : Context → PatchHttpRequestInput → σ → VerbResult × σ
  Delete : Context → DeleteHttpRequestInput → σ → VerbResult × σ

/-- Go struct `ConditionalAccessPolicyClient`. -/
structure ConditionalAccessPolicyClient (σ : Type) where
  BaseClient : Client σ

/-- The anonymous struct `data` that `List` decodes the response into; its
field carries the JSON key `value`. -/
structure ListData where
  ConditionalAccessPolicys : Slice ConditionalAccessPolicy
  deriving DecidableEq, Repr

/-- The library functions the file calls, as parameters.

* `jsonMarshal e`        : `json.Marshal(e)` for a `ConditionalAccessPolicy`;
* `jsonUnmarshal b`      : `json.Unmarshal(b, &v)` for a fresh
                           `ConditionalAccessPolicy` variable `v`;
* `jsonUnmarshalData b`  : `json.Unmarshal(b, &data)` for the fresh anonymous
                           struct of `List`;
* `queryValues q`        : `q.Values()` of `odata.Query`. -/
structure Runtime where
  jsonMarshal : ConditionalAccessPolicy → Except String Bytes
  jsonUnmarshal : Bytes → Except String ConditionalAccessPolicy
  jsonUnmarshalData : Bytes → Except String ListData
  queryValues : Query → UrlValues

/-- One interaction of an operation with a collaborator. -/
inductive Call where
  | Marshal (entity : ConditionalAccessPolicy)
  | Get (ctx : Context) (input : GetHttpRequestInput)
  | Post (ctx : Context) (input : PostHttpRequestInput)
  | Patch (ctx : Context) (input : PatchHttpRequestInput)
  | Delete (ctx : Context) (input : DeleteHttpRequestInput)
  | ReadAll
  | Unmarshal (body : Bytes)
  | Close
  deriving DecidableEq, Repr

/-- The outside world together with the trace of interactions so far. -/
structure State (σ : Type) where
  world : σ
  trace : Slice Call

/-- Append one interaction to the trace. -/
def State.log {σ : Type} (s : State σ) (c : Call) : State σ :=
  { world := s.world, trace := s.trace ++ [c] }

/-- How a Go function call ends: it returns its values, or it panics. -/
inductive Outcome (α : Type) where
  | returned (v : α)
  | panicked
  deriving DecidableEq, Repr

/-- Whether an interaction is a call of a base client verb. -/
def Call.isVerb : Call → Bool
  | Call.Get _ _ => true
  | Call.Post _ _ => true
  | Call.Patch _ _ => true
  | Call.Delete _ _ => true
  | _ => false

/-- The `Uri` a base client call is made with. -/
def Call.uri : Call → Option Uri
  | Call.Get _ i => some i.Uri
  | Call.Post _ i => some i.Uri
  | Call.Patch _ i => some i.Uri
  | Call.Delete _ i => some i.Uri
  | _ => none

/-- The base client calls of a trace, in order. -/
def verbCalls (t : Slice Call) : Slice Call := t.filter Call.isVerb

/-- `List` returns a list of ConditionalAccessPolicy, optionally queried using
OData. -/
def ConditionalAccessPolicyClient.List {σ : Type} (c : ConditionalAccessPolicyClient σ)
    (rt : Runtime) (ctx : Context) (query : Query) (s : State σ) :
    Outcome (Option (Slice ConditionalAccessPolicy) × Int × Option String) × State σ :=
  let input : GetHttpRequestInput :=
    { DisablePaging := decide (query.Top > 0)
      ConsistencyFailureFunc := none
      ValidStatusCodes := [StatusOK]
      Uri :=
        { Entity := "/identity/conditionalAccess/policies"
          Params := rt.queryValues query
          HasTenantId := true } }
  let r := c.BaseClient.Get ctx input s.world
  let s1 : State σ := { world := r.2, trace := s.trace ++ [Call.Get ctx input] }
  match r.1.err with
  | some err =>
    (Outcome.returned
      (none, r.1.status, some ("ConditionalAccessPolicyClient.BaseClient.Get(): " ++ err)), s1)
  | none =>
    -- defer resp.Body.Close()
    match r.1.resp with
    | none => (Outcome.panicked, s1)
    | some resp =>
      let s2 := s1.log Call.ReadAll
      match ioReadAll resp.Body with
      | Except.error err =>
        (Outcome.returned (none, r.1.status, some ("io.ReadAll(): " ++ err)), s2.log Call.Close)
      | Except.ok respBody =>
        let s3 := s2.log (Call.Unmarshal respBody)
        match rt.jsonUnmarshalData respBody with
        | Except.error err =>
          (Outcome.returned (none, r.1.status, some ("json.Unmarshal(): " ++ err)),
            s3.log Call.Close)
        | Except.ok data =>
          (Outcome.returned (some data.ConditionalAccessPolicys, r.1.status, none),
            s3.log Call.Close)

/-- `Create` creates a new ConditionalAccessPolicy. -/
def ConditionalAccessPolicyClient.Create {σ : Type} (c : ConditionalAccessPolicyClient σ)
    (rt : Runtime) (ctx : Context) (conditionalAccessPolicy : ConditionalAccessPolicy)
    (s : State σ) :
    Outcome (Option ConditionalAccessPolicy × Int × Option String) × State σ :=
  let status : Int := 0
  let s0 := s.log (Call.Marshal conditionalAccessPolicy)
  match rt.jsonMarshal conditionalAccessPolicy with
  | Except.error err => (Outcome.returned (none, status, some ("json.Marshal(): " ++ err)), s0)
  | Except.ok body =>
    let input : PostHttpRequestInput :=
      { Body := body
        ConsistencyFailureFunc := none
        ValidStatusCodes := [StatusCreated]
        Uri :=
          { Entity := "/identity/conditionalAccess/policies"
            Params := []
            HasTenantId := true } }
    let r := c.BaseClient.Post ctx input s0.world
    let s1 : State σ := { world := r.2, trace := s0.trace ++ [Call.Post ctx input] }
    match r.1.err with
    | some err =>
      (Outcome.returned
        (none, r.1.status, some ("ConditionalAccessPolicyClient.BaseClient.Post(): " ++ err)),
        s1)
    | none =>
      -- defer resp.Body.Close()
      match r.1.resp with
      | none => (Outcome.panicked, s1)
      | some resp =>
        let s2 := s1.log Call.ReadAll
        match ioReadAll resp.Body with
        | Except.error err =>
          (Outcome.returned (none, r.1.status, some ("io.ReadAll(): " ++ err)),
            s2.log Call.Close)
        | Except.ok respBody =>
          let s3 := s2.log (Call.Unmarshal respBody)
          match rt.jsonUnmarshal respBody with
          | Except.error err =>
            (Outcome.returned (none, r.1.status, some ("json.Unmarshal(): " ++ err)),
              s3.log Call.Close)
          | Except.ok newConditionalAccessPolicy =>
            (Outcome.returned (some newConditionalAccessPolicy, r.1.status, none),
              s3.log Call.Close)

/-- `Get` retrieves a ConditionalAccessPolicy. -/
def ConditionalAccessPolicyClient.Get {σ : Type} (c : ConditionalAccessPolicyClient σ)
    (rt : Runtime) (ctx : Context) (id : String) (query : Query) (s : State σ) :
    Outcome (Option ConditionalAccessPolicy × Int × Option String) × State σ :=
  let input : GetHttpRequestInput :=
    { ConsistencyFailureFunc := some RetryOn404ConsistencyFailureFunc
      DisablePaging := false
      ValidStatusCodes := [StatusOK]
      Uri :=
        { Entity := "/identity/conditionalAccess/policies/" ++ id
          Params := rt.queryValues query
          HasTenantId := true } }
  let r := c.BaseClient.Get ctx input s.world
  let s1 : State σ := { world := r.2, trace := s.trace ++ [Call.Get ctx input] }
  match r.1.err with
  | some err =>
    (Outcome.returned
      (none, r.1.status, some ("ConditionalAccessPolicyClient.BaseClient.Get(): " ++ err)), s1)
  | none =>
    -- defer resp.Body.Close()
    match r.1.resp with
    | none => (Outcome.panicked, s1)
    | some resp =>
      let s2 := s1.log Call.ReadAll
      match ioReadAll resp.Body with
      | Except.error err =>
        (Outcome.returned (none, r.1.status, some ("io.ReadAll(): " ++ err)), s2.log Call.Close)
      | Except.ok respBody =>
        let s3 := s2.log (Call.Unmarshal respBody)
        match rt.jsonUnmarshal respBody with
        | Except.error err =>
          (Outcome.returned (none, r.1.status, some ("json.Unmarshal(): " ++ err)),
            s3.log Call.Close)
        | Except.ok conditionalAccessPolicy =>
          (Outcome.returned (some conditionalAccessPolicy, r.1.status, none),
            s3.log Call.Close)

/-- `Update` amends an existing ConditionalAccessPolicy. -/
def ConditionalAccessPolicyClient.Update {σ : Type} (c : ConditionalAccessPolicyClient σ)
    (rt : Runtime) (ctx : Context) (conditionalAccessPolicy : ConditionalAccessPolicy)
    (s : State σ) : Outcome (Int × Option String) × State σ :=
  let status : Int := 0
  match conditionalAccessPolicy.ID with
  | none =>
    (Outcome.returned (status, some "cannot update conditionalAccessPolicy with nil ID"), s)
  | some id =>
    let s0 := s.log (Call.Marshal conditionalAccessPolicy)
    match rt.jsonMarshal conditionalAccessPolicy with
    | Except.error err => (Outcome.returned (status, some ("json.Marshal(): " ++ err)), s0)
    | Except.ok body =>
      let input : PatchHttpRequestInput :=
        { Body := body
          ConsistencyFailureFunc := some RetryOn404ConsistencyFailureFunc
          ValidStatusCodes := [StatusNoContent]
          Uri :=
            { Entity := "/identity/conditionalAccess/policies/" ++ id
              Params := []
              HasTenantId := true } }
      let r := c.BaseClient.Patch ctx input s0.world
      let s1 : State σ := { world := r.2, trace := s0.trace ++ [Call.Patch ctx input] }
      match r.1.err with
      | some err =>
        (Outcome.returned
          (r.1.status, some ("ConditionalAccessPolicyClient.BaseClient.Patch(): " ++ err)), s1)
      | none => (Outcome.returned (r.1.status, none), s1)

/-- `Delete` removes a ConditionalAccessPolicy. -/
def ConditionalAccessPolicyClient.Delete {σ : Type} (c : ConditionalAccessPolicyClient σ)
    (ctx : Context) (id : String) (s : State σ) : Outcome (Int × Option String) × State σ :=
  let input : DeleteHttpRequestInput :=
    { ConsistencyFailureFunc := some RetryOn404ConsistencyFailureFunc
      ValidStatusCodes := [StatusNoContent]
      Uri :=
        { Entity := "/identity/conditionalAccess/policies/" ++ id
          Params := []
          HasTenantId := true } }
  let r := c.BaseClient.Delete ctx input s.world
  let s1 : State σ := { world := r.2, trace := s.trace ++ [Call.Delete ctx input] }
  match r.1.err with
  | some err =>
    (Outcome.returned
      (r.1.status, some ("ConditionalAccessPolicyClient.BaseClient.Delete(): " ++ err)), s1)
  | none => (Outcome.returned (r.1.status, none), s1)

/-! ## Sample collaborators, used to instantiate the theorems -/

/-- A base client over a request counter: every verb answers with `r` and
counts the request. -/
def constClient (r : VerbResult) : ConditionalAccessPolicyClient Nat :=
  { BaseClient :=
      { Get := fun _ _ n => (r, n + 1)
        Post := fun _ _ n => (r, n + 1)
        Patch := fun _ _ n => (r, n + 1)
        Delete := fun _ _ n => (r, n + 1) } }

/-- A sample runtime: an entity with an empty document does not serialize, any
other serializes to the bytes `[1]`; the bytes `[2]` decode to the entity
`srv-1`, the bytes `[3]` to a document without a `value` member, the bytes
`[4]` to a document whose `value` holds two entities, and nothing else
decodes. -/
def sampleRuntime : Runtime :=
  { jsonMarshal := fun e =>
      if e.Document = "" then Except.error "json: unsupported value" else Except.ok [1]
    jsonUnmarshal := fun b =>
      if b = [2] then Except.ok { ID := some "srv-1", Document := "created" }
      else Except.error "unexpected end of JSON input"
    jsonUnmarshalData := fun b =>
      if b = [3] then Except.ok { ConditionalAccessPolicys := [] }
      else if b = [4] then
        Except.ok
          { ConditionalAccessPolicys :=
              [{ ID := some "a", Document := "first" }, { ID := some "b", Document := "second" }] }
      else Except.error "unexpected end of JSON input"
    queryValues := fun q => if q.Top > 0 then [("$top", [q.Other])] else [] }

/-- A sample context. -/
def sampleCtx : Context := { name := "background" }

/-- The initial state: no request counted, empty trace. -/
def initState : State Nat := { world := 0, trace := [] }

/-- A verb result that reports the error `msg` with status `st`. -/
def failWith (st : Int) (msg : String) : VerbResult :=
  { resp := none, status := st, odata := none, err := some msg }

/-- A verb result that succeeds with status `st` and a body reading as `body`. -/
def succeedWith (st : Int) (body : Except String Bytes) : VerbResult :=
  { resp := some { Body := { content := body } }, status := st, odata := none, err := none }

/-! ## Theorems -/

/-- C1: for every client and every entity whose ID is nil, `Update` returns
status 0 and the error "cannot update conditionalAccessPolicy with nil ID",
and leaves the state as it found it: the trace gains no `Marshal` and no
`Patch` entry and the outside world is untouched. -/
theorem Update_nil_ID {σ : Type} (c : ConditionalAccessPolicyClient σ) (rt : Runtime)
    (ctx : Context) (e : ConditionalAccessPolicy) (s : State σ) (hid : e.ID = none) :
    c.Update rt ctx e s
      = (Outcome.returned (0, some "cannot update conditionalAccessPolicy with nil ID"), s) := by
  simp [ConditionalAccessPolicyClient.Update, hid]

/-- Witness of C1: an entity without ID, against a base client that would
answer 204. -/
theorem Update_nil_ID_witness :
    (constClient (succeedWith 204 (Except.ok []))).Update sampleRuntime sampleCtx
        { ID := none, Document := "doc" } initState
      = (Outcome.returned (0, some "cannot update conditionalAccessPolicy with nil ID"),
          initState) :=
  Update_nil_ID _ _ _ _ _ rfl

/-- C2: for every entity whose ID is non-nil and whose serialization succeeds
with `body`, `Update` serializes and then calls `Patch` exactly once, with
`Body = body`, `ValidStatusCodes = [204]`, the hook
`RetryOn404ConsistencyFailureFunc`, `Uri.Entity` the policies path followed by
the ID and `HasTenantId = true`; it returns the status `Patch` returned, and
its error is nil exactly when the error of `Patch` is. -/
theorem Update_calls_Patch {σ : Type} (c : ConditionalAccessPolicyClient σ) (rt : Runtime)
    (ctx : Context) (e : ConditionalAccessPolicy) (s : State σ) (id : String) (body : Bytes)
    (hid : e.ID = some id) (hm : rt.jsonMarshal e = Except.ok body) :
    ∃ input : PatchHttpRequestInput,
      input.Body = body ∧
      input.ValidStatusCodes = [204] ∧
      input.ConsistencyFailureFunc = some RetryOn404ConsistencyFailureFunc ∧
      input.Uri.Entity = "/identity/conditionalAccess/policies/" ++ id ∧
      input.Uri.HasTenantId = true ∧
      (c.Update rt ctx e s).2.trace = s.trace ++ [Call.Marshal e, Call.Patch ctx input] ∧
      verbCalls (c.Update rt ctx e s).2.trace = verbCalls s.trace ++ [Call.Patch ctx input] ∧
      (c.Update rt ctx e s).2.world = (c.BaseClient.Patch ctx input s.world).2 ∧
      ∃ err : Option String,
        (c.Update rt ctx e s).1
          = Outcome.returned ((c.BaseClient.Patch ctx input s.world).1.status, err) ∧
        (err = none ↔ (c.BaseClient.Patch ctx input s.world).1.err = none) := by
  refine ⟨{ Body := body
            ConsistencyFailureFunc := some RetryOn404ConsistencyFailureFunc
            ValidStatusCodes := [StatusNoContent]
            Uri := { Entity := "/identity/conditionalAccess/policies/" ++ id
                     Params := []
                     HasTenantId := true } }, rfl, rfl, rfl, rfl, rfl, ?_⟩
  simp only [ConditionalAccessPolicyClient.Update, hid, hm, State.log]
  cases hr : (c.BaseClient.Patch ctx _ s.world).1.err <;>
    simp [hr, verbCalls, Call.isVerb, List.filter_append]

/-- Witness of C2: the entity `p1` against a base client answering 204: the
update returns `(204, nil)` after one `Marshal` and one `Patch`. -/
theorem Update_calls_Patch_witness :
    sampleRuntime.jsonMarshal { ID := some "p1", Document := "doc" } = Except.ok [1] ∧
    ((constClient (succeedWith 204 (Except.ok []))).Update sampleRuntime sampleCtx
        { ID := some "p1", Document := "doc" } initState).1
      = Outcome.returned (204, none) ∧
    (((constClient (succeedWith 204 (Except.ok []))).Update sampleRuntime sampleCtx
        { ID := some "p1", Document := "doc" } initState).2.trace).length = 2 := by
  obtain ⟨input, _, _, _, _, _, htrace, _, _, err, hret, hiff⟩ :=
    Update_calls_Patch (constClient (succeedWith 204 (Except.ok []))) sampleRuntime sampleCtx
      { ID := some "p1", Document := "doc" } initState "p1" [1] rfl rfl
  have herr : err = none := hiff.mpr rfl
  subst herr
  exact ⟨rfl, hret, by rw [htrace]; rfl⟩

/-- C3: for every entity whose serialization succeeds with `body`, `Create`
serializes and then calls `Post` exactly once (the base client calls of the
trace grow by exactly that call), with `Body = body`, `ValidStatusCodes =
[201]`, `Uri.Entity` the policies path, `HasTenantId = true` and a nil
consistency hook.  When `Post` reports no error and hands back a response
whose body reads as `b`, and `b` decodes to `v`, `Create` returns `v` (the
decoded entity, whatever the input entity was), the status of `Post` and a nil
error. -/
theorem Create_calls_Post {σ : Type} (c : ConditionalAccessPolicyClient σ) (rt : Runtime)
    (ctx : Context) (e : ConditionalAccessPolicy) (s : State σ) (body : Bytes)
    (hm : rt.jsonMarshal e = Except.ok body) :
    ∃ input : PostHttpRequestInput,
      input.Body = body ∧
      input.ValidStatusCodes = [201] ∧
      input.Uri.Entity = "/identity/conditionalAccess/policies" ∧
      input.Uri.HasTenantId = true ∧
      input.ConsistencyFailureFunc = none ∧
      s.trace ++ [Call.Marshal e, Call.Post ctx input] <+: (c.Create rt ctx e s).2.trace ∧
      verbCalls (c.Create rt ctx e s).2.trace = verbCalls s.trace ++ [Call.Post ctx input] ∧
      (c.Create rt ctx e s).2.world = (c.BaseClient.Post ctx input s.world).2 ∧
      ∀ (resp : Response) (b : Bytes) (v : ConditionalAccessPolicy),
        (c.BaseClient.Post ctx input s.world).1.err = none →
        (c.BaseClient.Post ctx input s.world).1.resp = some resp →
        ioReadAll resp.Body = Except.ok b →
        rt.jsonUnmarshal b = Except.ok v →
        (c.Create rt ctx e s).1
          = Outcome.returned (some v, (c.BaseClient.Post ctx input s.world).1.status, none) := by
  refine ⟨{ Body := body
            ConsistencyFailureFunc := none
            ValidStatusCodes := [StatusCreated]
            Uri := { Entity := "/identity/conditionalAccess/policies"
                     Params := []
                     HasTenantId := true } }, rfl, rfl, rfl, rfl, rfl, ?_, ?_, ?_, ?_⟩
  · simp only [ConditionalAccessPolicyClient.Create, hm, State.log]
    repeat' split
    all_goals simp
  · simp only [ConditionalAccessPolicyClient.Create, hm, State.log]
    repeat' split
    all_goals simp [verbCalls, Call.isVerb, List.filter_append]
  · simp only [ConditionalAccessPolicyClient.Create, hm, State.log]
    repeat' split
    all_goals rfl
  · intro resp b v herr hresp hb hv
    simp only [ConditionalAccessPolicyClient.Create, hm, State.log, herr, hresp, hb, hv]

/-- Witness of C3: the input entity has no ID; the server answers 201 with a
body decoding to `srv-1`, and that decoded entity is what `Create` returns. -/
theorem Create_calls_Post_witness :
    sampleRuntime.jsonMarshal { ID := none, Document := "doc" } = Except.ok [1] ∧
    ((constClient (succeedWith 201 (Except.ok [2]))).Create sampleRuntime sampleCtx
        { ID := none, Document := "doc" } initState).1
      = Outcome.returned (some { ID := some "srv-1", Document := "created" }, 201, none) := by
  obtain ⟨input, _, _, _, _, _, _, _, _, hret⟩ :=
    Create_calls_Post (constClient (succeedWith 201 (Except.ok [2]))) sampleRuntime sampleCtx
      { ID := none, Document := "doc" } initState [1] rfl
  exact ⟨rfl, hret { Body := { content := Except.ok [2] } } [2]
    { ID := some "srv-1", Document := "created" } rfl rfl rfl rfl⟩

/-- C4: for every id and every query, `Get` calls the base client's `Get`
exactly once (the base client calls of the trace grow by exactly that call),
with `ValidStatusCodes = [200]`, the hook `RetryOn404ConsistencyFailureFunc`,
`Uri.Entity` the policies path followed by `/` and the id, `Uri.Params =
query.Values()` and `HasTenantId = true`.  When the call reports no error and
hands back a response whose body reads as `b`, and `b` decodes to `v`, `Get`
returns `v`, the status of the call and a nil error. -/
theorem Get_calls_Get {σ : Type} (c : ConditionalAccessPolicyClient σ) (rt : Runtime)
    (ctx : Context) (id : String) (query : Query) (s : State σ) :
    ∃ input : GetHttpRequestInput,
      input.ValidStatusCodes = [200] ∧
      input.ConsistencyFailureFunc = some RetryOn404ConsistencyFailureFunc ∧
      input.Uri.Entity = "/identity/conditionalAccess/policies/" ++ id ∧
      input.Uri.Params = rt.queryValues query ∧
      input.Uri.HasTenantId = true ∧
      s.trace ++ [Call.Get ctx input] <+: (c.Get rt ctx id query s).2.trace ∧
      verbCalls (c.Get rt ctx id query s).2.trace = verbCalls s.trace ++ [Call.Get ctx input] ∧
      (c.Get rt ctx id query s).2.world = (c.BaseClient.Get ctx input s.world).2 ∧
      ∀ (resp : Response) (b : Bytes) (v : ConditionalAccessPolicy),
        (c.BaseClient.Get ctx input s.world).1.err = none →
        (c.BaseClient.Get ctx input s.world).1.resp = some resp →
        ioReadAll resp.Body = Except.ok b →
        rt.jsonUnmarshal b = Except.ok v →
        (c.Get rt ctx id query s).1
          = Outcome.returned (some v, (c.BaseClient.Get ctx input s.world).1.status, none) := by
  refine ⟨{ ConsistencyFailureFunc := some RetryOn404ConsistencyFailureFunc
            DisablePaging := false
            ValidStatusCodes := [StatusOK]
            Uri := { Entity := "/identity/conditionalAccess/policies/" ++ id
                     Params := rt.queryValues query
                     HasTenantId := true } }, rfl, rfl, rfl, rfl, rfl, ?_, ?_, ?_, ?_⟩
  · simp only [ConditionalAccessPolicyClient.Get, State.log]
    repeat' split
    all_goals simp
  · simp only [ConditionalAccessPolicyClient.Get, State.log]
    repeat' split
    all_goals simp [verbCalls, Call.isVerb, List.filter_append]
  · simp only [ConditionalAccessPolicyClient.Get, State.log]
    repeat' split
    all_goals rfl
  · intro resp b v herr hresp hb hv
    simp only [ConditionalAccessPolicyClient.Get, State.log, herr, hresp, hb, hv]

/-- Witness of C4: the server answers 200 with a body decoding to `srv-1`. -/
theorem Get_calls_Get_witness :
    ((constClient (succeedWith 200 (Except.ok [2]))).Get sampleRuntime sampleCtx "srv-1"
        { Top := 0, Other := "" } initState).1
      = Outcome.returned (some { ID := some "srv-1", Document := "created" }, 200, none) := by
  obtain ⟨input, _, _, _, _, _, _, _, _, hret⟩ :=
    Get_calls_Get (constClient (succeedWith 200 (Except.ok [2]))) sampleRuntime sampleCtx "srv-1"
      { Top := 0, Other := "" } initState
  exact hret { Body := { content := Except.ok [2] } } [2]
    { ID := some "srv-1", Document := "created" } rfl rfl rfl rfl

/-- C5: for every id, `Delete` calls the base client's `Delete` exactly once
(it is the only entry the trace gains), with `ValidStatusCodes = [204]`, the
hook `RetryOn404ConsistencyFailureFunc` (the hook `Get` passes), `Uri.Entity`
the policies path followed by `/` and the id, and `HasTenantId = true`; it
returns the status the base client returned, and its error is nil exactly
when the base client's error is. -/
theorem Delete_calls_Delete {σ : Type} (c : ConditionalAccessPolicyClient σ)
    (ctx : Context) (id : String) (s : State σ) :
    ∃ input : DeleteHttpRequestInput,
      input.ValidStatusCodes = [204] ∧
      input.ConsistencyFailureFunc = some RetryOn404ConsistencyFailureFunc ∧
      input.Uri.Entity = "/identity/conditionalAccess/policies/" ++ id ∧
      input.Uri.HasTenantId = true ∧
      (c.Delete ctx id s).2.trace = s.trace ++ [Call.Delete ctx input] ∧
      verbCalls (c.Delete ctx id s).2.trace = verbCalls s.trace ++ [Call.Delete ctx input] ∧
      (c.Delete ctx id s).2.world = (c.BaseClient.Delete ctx input s.world).2 ∧
      ∃ err : Option String,
        (c.Delete ctx id s).1
          = Outcome.returned ((c.BaseClient.Delete ctx input s.world).1.status, err) ∧
        (err = none ↔ (c.BaseClient.Delete ctx input s.world).1.err = none) := by
  refine ⟨{ ConsistencyFailureFunc := some RetryOn404ConsistencyFailureFunc
            ValidStatusCodes := [StatusNoContent]
            Uri := { Entity := "/identity/conditionalAccess/policies/" ++ id
                     Params := []
                     HasTenantId := true } }, rfl, rfl, rfl, rfl, ?_⟩
  simp only [ConditionalAccessPolicyClient.Delete]
  cases hr : (c.BaseClient.Delete ctx _ s.world).1.err <;>
    simp [hr, verbCalls, Call.isVerb, List.filter_append]

/-- C6: for every query, `List` calls the base client's `Get` exactly once
(the base client calls of the trace grow by exactly that call), with
`ValidStatusCodes = [200]`, `Uri.Entity` the policies path, `Uri.Params =
query.Values()`, `HasTenantId = true`, a nil consistency hook, and
`DisablePaging` true if and only if `query.Top > 0`.  When the call reports no
error and hands back a response whose body reads as `b`, and `b` decodes to
the document `data`, `List` returns the sequence held by the `value` field of
`data`, in its order, the status of the call and a nil error. -/
theorem List_calls_Get {σ : Type} (c : ConditionalAccessPolicyClient σ) (rt : Runtime)
    (ctx : Context) (query : Query) (s : State σ) :
    ∃ input : GetHttpRequestInput,
      input.ValidStatusCodes = [200] ∧
      input.Uri.Entity = "/identity/conditionalAccess/policies" ∧
      input.Uri.Params = rt.queryValues query ∧
      input.Uri.HasTenantId = true ∧
      input.ConsistencyFailureFunc = none ∧
      (input.DisablePaging = true ↔ query.Top > 0) ∧
      s.trace ++ [Call.Get ctx input] <+: (c.List rt ctx query s).2.trace ∧
      verbCalls (c.List rt ctx query s).2.trace = verbCalls s.trace ++ [Call.Get ctx input] ∧
      (c.List rt ctx query s).2.world = (c.BaseClient.Get ctx input s.world).2 ∧
      ∀ (resp : Response) (b : Bytes) (data : ListData),
        (c.BaseClient.Get ctx input s.world).1.err = none →
        (c.BaseClient.Get ctx input s.world).1.resp = some resp →
        ioReadAll resp.Body = Except.ok b →
        rt.jsonUnmarshalData b = Except.ok data →
        (c.List rt ctx query s).1
          = Outcome.returned
              (some data.ConditionalAccessPolicys,
                (c.BaseClient.Get ctx input s.world).1.status, none) := by
  refine ⟨{ DisablePaging := decide (query.Top > 0)
            ConsistencyFailureFunc := none
            ValidStatusCodes := [StatusOK]
            Uri := { Entity := "/identity/conditionalAccess/policies"
                     Params := rt.queryValues query
                     HasTenantId := true } }, rfl, rfl, rfl, rfl, rfl, by simp, ?_, ?_, ?_, ?_⟩
  · simp only [ConditionalAccessPolicyClient.List, State.log]
    repeat' split
    all_goals simp
  · simp only [ConditionalAccessPolicyClient.List, State.log]
    repeat' split
    all_goals simp [verbCalls, Call.isVerb, List.filter_append]
  · simp only [ConditionalAccessPolicyClient.List, State.log]
    repeat' split
    all_goals rfl
  · intro resp b data herr hresp hb hv
    simp only [ConditionalAccessPolicyClient.List, State.log, herr, hresp, hb, hv]

/-- Witness of C6: the server answers 200 with a document whose `value` holds
two entities; `List` returns them in that order. -/
theorem List_calls_Get_witness :
    ((constClient (succeedWith 200 (Except.ok [4]))).List sampleRuntime sampleCtx
        { Top := 5, Other := "5" } initState).1
      = Outcome.returned
          (some [{ ID := some "a", Document := "first" }, { ID := some "b", Document := "second" }],
            200, none) := by
  obtain ⟨input, _, _, _, _, _, _, _, _, _, hret⟩ :=
    List_calls_Get (constClient (succeedWith 200 (Except.ok [4]))) sampleRuntime sampleCtx
      { Top := 5, Other := "5" } initState
  exact hret { Body := { content := Except.ok [4] } } [4]
    { ConditionalAccessPolicys :=
        [{ ID := some "a", Document := "first" }, { ID := some "b", Document := "second" }] }
    rfl rfl rfl rfl

/-- C7: each operation makes one base client call, and whenever that call
returns an error `msg`, the operation returns the status the call returned, a
nil result (`List`, `Create`, `Get`) and the error
"ConditionalAccessPolicyClient.BaseClient.<Verb>(): " followed by `msg`, the
verb being Get, Post, Get, Patch, Delete for List, Create, Get, Update,
Delete; the failed call is the last entry of the trace, so nothing is retried
or recovered.  (`Create` and `Update` reach their call when the entity
serializes, `Update` when moreover the ID is non-nil.) -/
theorem verb_error_is_wrapped {σ : Type} (c : ConditionalAccessPolicyClient σ) (rt : Runtime)
    (ctx : Context) (s : State σ) (query : Query) (id : String) (p : ConditionalAccessPolicy) :
    (∃ input : GetHttpRequestInput,
      verbCalls (c.List rt ctx query s).2.trace = verbCalls s.trace ++ [Call.Get ctx input] ∧
      ∀ msg : String, (c.BaseClient.Get ctx input s.world).1.err = some msg →
        (c.List rt ctx query s).1
          = Outcome.returned (none, (c.BaseClient.Get ctx input s.world).1.status,
              some ("ConditionalAccessPolicyClient.BaseClient.Get(): " ++ msg)) ∧
        (c.List rt ctx query s).2.trace = s.trace ++ [Call.Get ctx input]) ∧
    (∀ body : Bytes, rt.jsonMarshal p = Except.ok body →
      ∃ input : PostHttpRequestInput,
        verbCalls (c.Create rt ctx p s).2.trace = verbCalls s.trace ++ [Call.Post ctx input] ∧
        ∀ msg : String, (c.BaseClient.Post ctx input s.world).1.err = some msg →
          (c.Create rt ctx p s).1
            = Outcome.returned (none, (c.BaseClient.Post ctx input s.world).1.status,
                some ("ConditionalAccessPolicyClient.BaseClient.Post(): " ++ msg)) ∧
          (c.Create rt ctx p s).2.trace = s.trace ++ [Call.Marshal p, Call.Post ctx input]) ∧
    (∃ input : GetHttpRequestInput,
      verbCalls (c.Get rt ctx id query s).2.trace = verbCalls s.trace ++ [Call.Get ctx input] ∧
      ∀ msg : String, (c.BaseClient.Get ctx input s.world).1.err = some msg →
        (c.Get rt ctx id query s).1
          = Outcome.returned (none, (c.BaseClient.Get ctx input s.world).1.status,
              some ("ConditionalAccessPolicyClient.BaseClient.Get(): " ++ msg)) ∧
        (c.Get rt ctx id query s).2.trace = s.trace ++ [Call.Get ctx input]) ∧
    (∀ (pid : String) (body : Bytes), p.ID = some pid → rt.jsonMarshal p = Except.ok body →
      ∃ input : PatchHttpRequestInput,
        verbCalls (c.Update rt ctx p s).2.trace = verbCalls s.trace ++ [Call.Patch ctx input] ∧
        ∀ msg : String, (c.BaseClient.Patch ctx input s.world).1.err = some msg →
          (c.Update rt ctx p s).1
            = Outcome.returned ((c.BaseClient.Patch ctx input s.world).1.status,
                some ("ConditionalAccessPolicyClient.BaseClient.Patch(): " ++ msg)) ∧
          (c.Update rt ctx p s).2.trace = s.trace ++ [Call.Marshal p, Call.Patch ctx input]) ∧
    (∃ input : DeleteHttpRequestInput,
      verbCalls (c.Delete ctx id s).2.trace = verbCalls s.trace ++ [Call.Delete ctx input] ∧
      ∀ msg : String, (c.BaseClient.Delete ctx input s.world).1.err = some msg →
        (c.Delete ctx id s).1
          = Outcome.returned ((c.BaseClient.Delete ctx input s.world).1.status,
              some ("ConditionalAccessPolicyClient.BaseClient.Delete(): " ++ msg)) ∧
        (c.Delete ctx id s).2.trace = s.trace ++ [Call.Delete ctx input]) := by
  refine ⟨⟨{ DisablePaging := decide (query.Top > 0),
                ConsistencyFailureFunc := none,
                ValidStatusCodes := [StatusOK],
                Uri := { Entity := "/identity/conditionalAccess/policies",
                         Params := rt.queryValues query,
                         HasTenantId := true } }, ?_, ?_⟩, ?_,
          ⟨{ ConsistencyFailureFunc := some RetryOn404ConsistencyFailureFunc,
                DisablePaging := false,
                ValidStatusCodes := [StatusOK],
                Uri := { Entity := "/identity/conditionalAccess/policies/" ++ id,
                         Params := rt.queryValues query,
                         HasTenantId := true } }, ?_, ?_⟩, ?_,
          ⟨{ ConsistencyFailureFunc := some RetryOn404ConsistencyFailureFunc,
                ValidStatusCodes := [StatusNoContent],
                Uri := { Entity := "/identity/conditionalAccess/policies/" ++ id,
                         Params := [],
                         HasTenantId := true } }, ?_, ?_⟩⟩
  · simp only [ConditionalAccessPolicyClient.List, State.log]
    repeat' split
    all_goals simp [verbCalls, Call.isVerb, List.filter_append]
  · intro msg hmsg
    simp [ConditionalAccessPolicyClient.List, hmsg]
  · intro body hm
    refine ⟨{ Body := body,
                ConsistencyFailureFunc := none,
                ValidStatusCodes := [StatusCreated],
                Uri := { Entity := "/identity/conditionalAccess/policies",
                         Params := [],
                         HasTenantId := true } }, ?_, ?_⟩
    · simp only [ConditionalAccessPolicyClient.Create, hm, State.log]
      repeat' split
      all_goals simp [verbCalls, Call.isVerb, List.filter_append]
    · intro msg hmsg
      simp [ConditionalAccessPolicyClient.Create, hm, State.log, hmsg]
  · simp only [ConditionalAccessPolicyClient.Get, State.log]
    repeat' split
    all_goals simp [verbCalls, Call.isVerb, List.filter_append]
  · intro msg hmsg
    simp [ConditionalAccessPolicyClient.Get, hmsg]
  · intro pid body hid hm
    refine ⟨{ Body := body,
                ConsistencyFailureFunc := some RetryOn404ConsistencyFailureFunc,
                ValidStatusCodes := [StatusNoContent],
                Uri := { Entity := "/identity/conditionalAccess/policies/" ++ pid,
                         Params := [],
                         HasTenantId := true } }, ?_, ?_⟩
    · simp only [ConditionalAccessPolicyClient.Update, hid, hm, State.log]
      repeat' split
      all_goals simp [verbCalls, Call.isVerb, List.filter_append]
    · intro msg hmsg
      simp [ConditionalAccessPolicyClient.Update, hid, hm, State.log, hmsg]
  · simp only [ConditionalAccessPolicyClient.Delete]
    repeat' split
    all_goals simp [verbCalls, Call.isVerb, List.filter_append]
  · intro msg hmsg
    simp [ConditionalAccessPolicyClient.Delete, hmsg]

/-- Witness of C7: a base client failing every verb with status 503 and the
error "connection refused"; `Create` and `Update` report it wrapped. -/
theorem verb_error_is_wrapped_witness :
    ((constClient (failWith 503 "connection refused")).Create sampleRuntime sampleCtx
        { ID := some "p1", Document := "doc" } initState).1
      = Outcome.returned (none, 503,
          some "ConditionalAccessPolicyClient.BaseClient.Post(): connection refused") ∧
    ((constClient (failWith 503 "connection refused")).Update sampleRuntime sampleCtx
        { ID := some "p1", Document := "doc" } initState).1
      = Outcome.returned (503,
          some "ConditionalAccessPolicyClient.BaseClient.Patch(): connection refused") := by
  obtain ⟨_, hcreate, _, hupdate, _⟩ :=
    verb_error_is_wrapped (constClient (failWith 503 "connection refused")) sampleRuntime
      sampleCtx initState { Top := 0, Other := "" } "p1" { ID := some "p1", Document := "doc" }
  obtain ⟨_, _, hc⟩ := hcreate [1] rfl
  obtain ⟨_, _, hu⟩ := hupdate "p1" [1] rfl rfl
  exact ⟨(hc "connection refused" rfl).1, (hu "connection refused" rfl).1⟩

/-- C8: for `List`, `Create` and `Get`: when the one base client call reports
no error and hands back a response, with status `st`, but reading the body
fails with `msg`, the operation returns a nil result, the status `st` and the
error "io.ReadAll(): " followed by `msg`; when the body reads as `b` but `b`
does not decode, failing with `msg`, it returns a nil result, the status `st`
and the error "json.Unmarshal(): " followed by `msg`.  The status is the one
the base client returned, so a success status accompanies the error. -/
theorem read_or_decode_error_is_wrapped {σ : Type} (c : ConditionalAccessPolicyClient σ)
    (rt : Runtime) (ctx : Context) (s : State σ) (query : Query) (id : String)
    (p : ConditionalAccessPolicy) :
    (∃ input : GetHttpRequestInput,
      verbCalls (c.List rt ctx query s).2.trace = verbCalls s.trace ++ [Call.Get ctx input] ∧
      ∀ resp : Response,
        (c.BaseClient.Get ctx input s.world).1.err = none →
        (c.BaseClient.Get ctx input s.world).1.resp = some resp →
        (∀ msg : String, ioReadAll resp.Body = Except.error msg →
          (c.List rt ctx query s).1
            = Outcome.returned (none, (c.BaseClient.Get ctx input s.world).1.status,
                some ("io.ReadAll(): " ++ msg))) ∧
        (∀ (b : Bytes) (msg : String), ioReadAll resp.Body = Except.ok b →
          rt.jsonUnmarshalData b = Except.error msg →
          (c.List rt ctx query s).1
            = Outcome.returned (none, (c.BaseClient.Get ctx input s.world).1.status,
                some ("json.Unmarshal(): " ++ msg)))) ∧
    (∀ body : Bytes, rt.jsonMarshal p = Except.ok body →
      ∃ input : PostHttpRequestInput,
      verbCalls (c.Create rt ctx p s).2.trace = verbCalls s.trace ++ [Call.Post ctx input] ∧
      ∀ resp : Response,
        (c.BaseClient.Post ctx input s.world).1.err = none →
        (c.BaseClient.Post ctx input s.world).1.resp = some resp →
        (∀ msg : String, ioReadAll resp.Body = Except.error msg →
          (c.Create rt ctx p s).1
            = Outcome.returned (none, (c.BaseClient.Post ctx input s.world).1.status,
                some ("io.ReadAll(): " ++ msg))) ∧
        (∀ (b : Bytes) (msg : String), ioReadAll resp.Body = Except.ok b →
          rt.jsonUnmarshal b = Except.error msg →
          (c.Create rt ctx p s).1
            = Outcome.returned (none, (c.BaseClient.Post ctx input s.world).1.status,
                some ("json.Unmarshal(): " ++ msg)))) ∧
    (∃ input : GetHttpRequestInput,
      verbCalls (c.Get rt ctx id query s).2.trace = verbCalls s.trace ++ [Call.Get ctx input] ∧
      ∀ resp : Response,
        (c.BaseClient.Get ctx input s.world).1.err = none →
        (c.BaseClient.Get ctx input s.world).1.resp = some resp →
        (∀ msg : String, ioReadAll resp.Body = Except.error msg →
          (c.Get rt ctx id query s).1
            = Outcome.returned (none, (c.BaseClient.Get ctx input s.world).1.status,
                some ("io.ReadAll(): " ++ msg))) ∧
        (∀ (b : Bytes) (msg : String), ioReadAll resp.Body = Except.ok b →
          rt.jsonUnmarshal b = Except.error msg →
          (c.Get rt ctx id query s).1
            = Outcome.returned (none, (c.BaseClient.Get ctx input s.world).1.status,
                some ("json.Unmarshal(): " ++ msg)))) := by
  refine ⟨⟨{ DisablePaging := decide (query.Top > 0),
                ConsistencyFailureFunc := none,
                ValidStatusCodes := [StatusOK],
                Uri := { Entity := "/identity/conditionalAccess/policies",
                         Params := rt.queryValues query,
                         HasTenantId := true } }, ?_, ?_⟩, ?_,
    ⟨{ ConsistencyFailureFunc := some RetryOn404ConsistencyFailureFunc,
                DisablePaging := false,
                ValidStatusCodes := [StatusOK],
                Uri := { Entity := "/identity/conditionalAccess/policies/" ++ id,
                         Params := rt.queryValues query,
                         HasTenantId := true } }, ?_, ?_⟩⟩
  · simp only [ConditionalAccessPolicyClient.List, State.log]
    repeat' split
    all_goals simp [verbCalls, Call.isVerb, List.filter_append]
  · intro resp herr hresp
    refine ⟨?_, ?_⟩
    · intro msg hb
      simp [ConditionalAccessPolicyClient.List, State.log, herr, hresp, hb]
    · intro b msg hb hv
      simp [ConditionalAccessPolicyClient.List, State.log, herr, hresp, hb, hv]
  · intro body hm
    refine ⟨{ Body := body,
                ConsistencyFailureFunc := none,
                ValidStatusCodes := [StatusCreated],
                Uri := { Entity := "/identity/conditionalAccess/policies",
                         Params := [],
                         HasTenantId := true } }, ?_, ?_⟩
    · simp only [ConditionalAccessPolicyClient.Create, hm, State.log]
      repeat' split
      all_goals simp [verbCalls, Call.isVerb, List.filter_append]
    · intro resp herr hresp
      refine ⟨?_, ?_⟩
      · intro msg hb
        simp [ConditionalAccessPolicyClient.Create, hm, State.log, herr, hresp, hb]
      · intro b msg hb hv
        simp [ConditionalAccessPolicyClient.Create, hm, State.log, herr, hresp, hb, hv]
  · simp only [ConditionalAccessPolicyClient.Get, State.log]
    repeat' split
    all_goals simp [verbCalls, Call.isVerb, List.filter_append]
  · intro resp herr hresp
    refine ⟨?_, ?_⟩
    · intro msg hb
      simp [ConditionalAccessPolicyClient.Get, State.log, herr, hresp, hb]
    · intro b msg hb hv
      simp [ConditionalAccessPolicyClient.Get, State.log, herr, hresp, hb, hv]

/-- Witness of C8: the server answers `List` with 200 and a body that does
not decode, and `Create` with 201 and a body that cannot be read; both return
the success status together with the wrapped error. -/
theorem read_or_decode_error_is_wrapped_witness :
    ((constClient (succeedWith 200 (Except.ok [9]))).List sampleRuntime sampleCtx
        { Top := 0, Other := "" } initState).1
      = Outcome.returned (none, 200, some "json.Unmarshal(): unexpected end of JSON input") ∧
    ((constClient (succeedWith 201 (Except.error "unexpected EOF"))).Create sampleRuntime
        sampleCtx { ID := none, Document := "doc" } initState).1
      = Outcome.returned (none, 201, some "io.ReadAll(): unexpected EOF") := by
  obtain ⟨⟨_, _, hlist⟩, _, _⟩ :=
    read_or_decode_error_is_wrapped (constClient (succeedWith 200 (Except.ok [9])))
      sampleRuntime sampleCtx initState { Top := 0, Other := "" } "p1"
      { ID := none, Document := "doc" }
  obtain ⟨_, hcreate, _⟩ :=
    read_or_decode_error_is_wrapped
      (constClient (succeedWith 201 (Except.error "unexpected EOF")))
      sampleRuntime sampleCtx initState { Top := 0, Other := "" } "p1"
      { ID := none, Document := "doc" }
  obtain ⟨_, _, hc⟩ := hcreate [1] rfl
  exact ⟨(hlist { Body := { content := Except.ok [9] } } rfl rfl).2 [9]
      "unexpected end of JSON input" rfl rfl,
    (hc { Body := { content := Except.error "unexpected EOF" } } rfl rfl).1
      "unexpected EOF" rfl⟩

/-- C9: every invocation of `List`, `Create`, `Get`, `Update` or `Delete` adds
at most one base client call to the trace; each added call has a
tenant-scoped `Uri` (`HasTenantId = true`) whose `Entity` is exactly the
policies path (`List`, `Create`) or that path followed by `/` and the id
(`Get`, `Update`, `Delete`).  `List`, `Get` and `Delete` always add one call;
`Create` adds none exactly when serialization fails; `Update` adds none
exactly when the ID is nil or serialization fails. -/
theorem at_most_one_tenant_scoped_call {σ : Type} (c : ConditionalAccessPolicyClient σ)
    (rt : Runtime) (ctx : Context) (s : State σ) (query : Query) (id : String)
    (p : ConditionalAccessPolicy) :
    (∃ added : Slice Call,
      verbCalls (c.List rt ctx query s).2.trace = verbCalls s.trace ++ added ∧
      added.length = 1 ∧
      ∀ call ∈ added, ∃ u : Uri, call.uri = some u ∧ u.HasTenantId = true ∧
        u.Entity = "/identity/conditionalAccess/policies") ∧
    (∃ added : Slice Call,
      verbCalls (c.Create rt ctx p s).2.trace = verbCalls s.trace ++ added ∧
      added.length ≤ 1 ∧
      (∀ call ∈ added, ∃ u : Uri, call.uri = some u ∧ u.HasTenantId = true ∧
        u.Entity = "/identity/conditionalAccess/policies") ∧
      (added = [] ↔ ∃ msg : String, rt.jsonMarshal p = Except.error msg)) ∧
    (∃ added : Slice Call,
      verbCalls (c.Get rt ctx id query s).2.trace = verbCalls s.trace ++ added ∧
      added.length = 1 ∧
      ∀ call ∈ added, ∃ u : Uri, call.uri = some u ∧ u.HasTenantId = true ∧
        u.Entity = "/identity/conditionalAccess/policies" ++ "/" ++ id) ∧
    (∃ added : Slice Call,
      verbCalls (c.Update rt ctx p s).2.trace = verbCalls s.trace ++ added ∧
      added.length ≤ 1 ∧
      (∀ call ∈ added, ∃ (pid : String) (u : Uri), p.ID = some pid ∧ call.uri = some u ∧
        u.HasTenantId = true ∧ u.Entity = "/identity/conditionalAccess/policies" ++ "/" ++ pid) ∧
      (added = [] ↔ p.ID = none ∨ ∃ msg : String, rt.jsonMarshal p = Except.error msg)) ∧
    (∃ added : Slice Call,
      verbCalls (c.Delete ctx id s).2.trace = verbCalls s.trace ++ added ∧
      added.length = 1 ∧
      ∀ call ∈ added, ∃ u : Uri, call.uri = some u ∧ u.HasTenantId = true ∧
        u.Entity = "/identity/conditionalAccess/policies" ++ "/" ++ id) := by
  have hpath : ∀ x : String, "/identity/conditionalAccess/policies" ++ "/" ++ x
      = "/identity/conditionalAccess/policies/" ++ x := fun x => by
    rw [String.append_assoc]; rfl
  refine ⟨⟨[Call.Get ctx { DisablePaging := decide (query.Top > 0),
                                ConsistencyFailureFunc := none,
                                ValidStatusCodes := [StatusOK],
                                Uri := { Entity := "/identity/conditionalAccess/policies",
                                         Params := rt.queryValues query,
                                         HasTenantId := true } }], ?_, rfl, ?_⟩, ?_,
    ⟨[Call.Get ctx { ConsistencyFailureFunc := some RetryOn404ConsistencyFailureFunc,
                      DisablePaging := false,
                      ValidStatusCodes := [StatusOK],
                      Uri := { Entity := "/identity/conditionalAccess/policies/" ++ id,
                               Params := rt.queryValues query,
                               HasTenantId := true } }], ?_, rfl, ?_⟩, ?_,
    ⟨[Call.Delete ctx { ConsistencyFailureFunc := some RetryOn404ConsistencyFailureFunc,
                         ValidStatusCodes := [StatusNoContent],
                         Uri := { Entity := "/identity/conditionalAccess/policies/" ++ id,
                                  Params := [],
                                  HasTenantId := true } }], ?_, rfl, ?_⟩⟩
  · simp only [ConditionalAccessPolicyClient.List, State.log]
    repeat' split
    all_goals simp [verbCalls, Call.isVerb, List.filter_append]
  · intro call hcall
    simp only [List.mem_singleton] at hcall
    subst hcall
    exact ⟨_, rfl, rfl, rfl⟩
  · cases hm : rt.jsonMarshal p with
    | error msg =>
      refine ⟨[], ?_, by simp, by simp, by simp⟩
      simp [ConditionalAccessPolicyClient.Create, hm, State.log, verbCalls, Call.isVerb,
        List.filter_append]
    | ok body =>
      refine ⟨[Call.Post ctx { Body := body,
                                   ConsistencyFailureFunc := none,
                                   ValidStatusCodes := [StatusCreated],
                                   Uri := { Entity := "/identity/conditionalAccess/policies",
                                            Params := [],
                                            HasTenantId := true } }], ?_, by simp, ?_, by simp⟩
      · simp only [ConditionalAccessPolicyClient.Create, hm, State.log]
        repeat' split
        all_goals simp [verbCalls, Call.isVerb, List.filter_append]
      · intro call hcall
        simp only [List.mem_singleton] at hcall
        subst hcall
        exact ⟨_, rfl, rfl, rfl⟩
  · simp only [ConditionalAccessPolicyClient.Get, State.log]
    repeat' split
    all_goals simp [verbCalls, Call.isVerb, List.filter_append]
  · intro call hcall
    simp only [List.mem_singleton] at hcall
    subst hcall
    exact ⟨_, rfl, rfl, (hpath id).symm⟩
  · cases hid : p.ID with
    | none =>
      refine ⟨[], ?_, by simp, by simp, by simp⟩
      simp [ConditionalAccessPolicyClient.Update, hid]
    | some pid =>
      cases hm : rt.jsonMarshal p with
      | error msg =>
        refine ⟨[], ?_, by simp, by simp, by simp⟩
        simp [ConditionalAccessPolicyClient.Update, hid, hm, State.log, verbCalls, Call.isVerb,
          List.filter_append]
      | ok body =>
        refine ⟨[Call.Patch ctx { Body := body,
                                      ConsistencyFailureFunc := some RetryOn404ConsistencyFailureFunc,
                                      ValidStatusCodes := [StatusNoContent],
                                      Uri := { Entity := "/identity/conditionalAccess/policies/" ++ pid,
                                               Params := [],
                                               HasTenantId := true } }], ?_, by simp, ?_, by simp⟩
        · simp only [ConditionalAccessPolicyClient.Update, hid, hm, State.log]
          repeat' split
          all_goals simp [verbCalls, Call.isVerb, List.filter_append]
        · intro call hcall
          simp only [List.mem_singleton] at hcall
          subst hcall
          exact ⟨pid, _, rfl, rfl, rfl, (hpath pid).symm⟩
  · simp only [ConditionalAccessPolicyClient.Delete]
    repeat' split
    all_goals simp [verbCalls, Call.isVerb, List.filter_append]
  · intro call hcall
    simp only [List.mem_singleton] at hcall
    subst hcall
    exact ⟨_, rfl, rfl, (hpath id).symm⟩

/-- C10: for `List`, `Create` and `Get`, on every input and every behaviour of
the base client and the decoder, whenever the operation returns `(r, st,
err)`, the result `r` is nil if and only if `err` is non-nil.  In particular,
when the response document of `List` has no `value` member (or a null one),
so that the decoded `value` field is the empty sequence, `List` returns a
non-nil pointer to the empty sequence.  The operations do return whenever the
base client hands back a response each time it reports no error. -/
theorem result_nil_iff_error {σ : Type} (c : ConditionalAccessPolicyClient σ)
    (rt : Runtime) (ctx : Context) (s : State σ) (query : Query) (id : String)
    (p : ConditionalAccessPolicy) :
    (∀ (r : Option (Slice ConditionalAccessPolicy)) (st : Int) (err : Option String),
      (c.List rt ctx query s).1 = Outcome.returned (r, st, err) → (r = none ↔ err ≠ none)) ∧
    (∀ (r : Option ConditionalAccessPolicy) (st : Int) (err : Option String),
      (c.Create rt ctx p s).1 = Outcome.returned (r, st, err) → (r = none ↔ err ≠ none)) ∧
    (∀ (r : Option ConditionalAccessPolicy) (st : Int) (err : Option String),
      (c.Get rt ctx id query s).1 = Outcome.returned (r, st, err) → (r = none ↔ err ≠ none)) ∧
    (∃ input : GetHttpRequestInput,
      verbCalls (c.List rt ctx query s).2.trace = verbCalls s.trace ++ [Call.Get ctx input] ∧
      ∀ (resp : Response) (b : Bytes),
        (c.BaseClient.Get ctx input s.world).1.err = none →
        (c.BaseClient.Get ctx input s.world).1.resp = some resp →
        ioReadAll resp.Body = Except.ok b →
        rt.jsonUnmarshalData b = Except.ok { ConditionalAccessPolicys := [] } →
        (c.List rt ctx query s).1
          = Outcome.returned (some [], (c.BaseClient.Get ctx input s.world).1.status, none)) ∧
    ((∀ (x : Context) (input : GetHttpRequestInput) (w : σ),
        (c.BaseClient.Get x input w).1.err = none → (c.BaseClient.Get x input w).1.resp ≠ none) →
      (c.List rt ctx query s).1 ≠ Outcome.panicked ∧
      (c.Get rt ctx id query s).1 ≠ Outcome.panicked) ∧
    ((∀ (x : Context) (input : PostHttpRequestInput) (w : σ),
        (c.BaseClient.Post x input w).1.err = none →
        (c.BaseClient.Post x input w).1.resp ≠ none) →
      (c.Create rt ctx p s).1 ≠ Outcome.panicked) := by
  refine ⟨?_, ?_, ?_,
    ⟨{ DisablePaging := decide (query.Top > 0),
       ConsistencyFailureFunc := none,
       ValidStatusCodes := [StatusOK],
       Uri := { Entity := "/identity/conditionalAccess/policies",
                Params := rt.queryValues query,
                HasTenantId := true } }, ?_, ?_⟩, ?_, ?_⟩
  · intro r st err h
    simp only [ConditionalAccessPolicyClient.List, State.log] at h
    repeat' split at h
    all_goals simp_all
    all_goals (obtain ⟨h1, _, h3⟩ := h; simp [← h1, ← h3])
  · intro r st err h
    simp only [ConditionalAccessPolicyClient.Create, State.log] at h
    repeat' split at h
    all_goals simp_all
    all_goals (obtain ⟨h1, _, h3⟩ := h; simp [← h1, ← h3])
  · intro r st err h
    simp only [ConditionalAccessPolicyClient.Get, State.log] at h
    repeat' split at h
    all_goals simp_all
    all_goals (obtain ⟨h1, _, h3⟩ := h; simp [← h1, ← h3])
  · simp only [ConditionalAccessPolicyClient.List, State.log]
    repeat' split
    all_goals simp [verbCalls, Call.isVerb, List.filter_append]
  · intro resp b herr hresp hb hv
    simp [ConditionalAccessPolicyClient.List, State.log, herr, hresp, hb, hv]
  · intro hc
    refine ⟨?_, ?_⟩
    · simp only [ConditionalAccessPolicyClient.List, State.log]
      split
      · simp
      · rename_i herr
        split
        · rename_i hresp
          exact absurd hresp (hc _ _ _ herr)
        · repeat' split
          all_goals simp
    · simp only [ConditionalAccessPolicyClient.Get, State.log]
      split
      · simp
      · rename_i herr
        split
        · rename_i hresp
          exact absurd hresp (hc _ _ _ herr)
        · repeat' split
          all_goals simp
  · intro hc
    simp only [ConditionalAccessPolicyClient.Create, State.log]
    split
    · simp
    · split
      · simp
      · rename_i herr
        split
        · rename_i hresp
          exact absurd hresp (hc _ _ _ herr)
        · repeat' split
          all_goals simp

/-- Witness of C10: the server answers `List` with 200 and a document without
a `value` member; `List` returns a non-nil pointer to the empty sequence and
a nil error. -/
theorem result_nil_iff_error_witness :
    ((constClient (succeedWith 200 (Except.ok [3]))).List sampleRuntime sampleCtx
        { Top := 0, Other := "" } initState).1
      = Outcome.returned (some [], 200, none) ∧
    ((some [] : Option (Slice ConditionalAccessPolicy)) = none ↔
      (none : Option String) ≠ none) := by
  obtain ⟨hiff, _, _, ⟨_, _, hempty⟩, _, _⟩ :=
    result_nil_iff_error (constClient (succeedWith 200 (Except.ok [3]))) sampleRuntime
      sampleCtx initState { Top := 0, Other := "" } "p1" { ID := none, Document := "doc" }
  have hret := hempty { Body := { content := Except.ok [3] } } [3] rfl rfl rfl rfl
  exact ⟨hret, hiff (some []) 200 none hret⟩

end Msgraph
